import Mathlib

/-!
Verification development for the pyclaw multi-channel gateway.

Each definition below is a shallow embedding of a function of the Python
source (file and symbol named in its doc comment).  Python strings are
modelled as Lean `String`, Python ints as `Nat`/`Int`, Python lists as
`List`, exceptions as `Except`, and `None`/absent dict fields as `Option`
or as the falsy default the source itself substitutes (`or ""`, `or []`).
-/

/-- Python `sep.join(parts)` (src: used via `"\n\n".join(...)` etc.). -/
def pyJoin (sep : String) : List String → String
  | [] => ""
  | [x] => x
  | x :: y :: rest => x ++ sep ++ pyJoin sep (y :: rest)

/-- Python `s.strip()`: drop whitespace from both ends (on the character
list, so that concrete evaluation reduces). -/
def pyStrip (s : String) : String :=
  ⟨((s.data.dropWhile Char.isWhitespace).reverse.dropWhile Char.isWhitespace).reverse⟩

/-- Python `s.endswith(suffix)`: suffix test on the character list. -/
def pyEndsWith (s suffixStr : String) : Bool :=
  suffixStr.data.isSuffixOf s.data

/-- Python `s[:-1]`: drop the last character. -/
def pyDropLast (s : String) : String :=
  ⟨s.data.dropLast⟩

/-- src/pyclaw/runtime.py: `DEFAULT_OPENAI_BASE`. -/
def DEFAULT_OPENAI_BASE : String := "https://api.openai.com/v1"

/-- src/pyclaw/runtime.py `_normalize_openai_base`:
empty input maps to the default base; otherwise strip one trailing
slash, then append "/v1" unless the result already ends in "/v1". -/
def normalizeOpenaiBase (base_url : String) : String :=
  if base_url = "" then DEFAULT_OPENAI_BASE
  else
    let b1 := if pyEndsWith base_url "/" then pyDropLast base_url else base_url
    if pyEndsWith b1 "/v1" then b1 else b1 ++ "/v1"

theorem pyEndsWith_iff (s suffixStr : String) :
    pyEndsWith s suffixStr = true ↔ suffixStr.data <:+ s.data := by
  simp [pyEndsWith, List.isSuffixOf_iff_suffix]

theorem pyEndsWith_append (x : String) (suffixStr : String) :
    pyEndsWith (x ++ suffixStr) suffixStr = true := by
  rw [pyEndsWith_iff]
  rw [String.data_append]
  exact List.suffix_append _ _

theorem suffix_getLast {α : Type} (l s : List α) (a : α)
    (h : l <:+ s) (hl : l.getLast? = some a) : s.getLast? = some a := by
  obtain ⟨t, rfl⟩ := h
  rw [List.getLast?_append, hl]
  rfl

theorem endsWith_v1_not_slash (s : String) (h : pyEndsWith s "/v1" = true) :
    pyEndsWith s "/" = false := by
  rw [pyEndsWith_iff] at h
  by_contra hc
  rw [Bool.not_eq_false, pyEndsWith_iff] at hc
  have h1 : s.data.getLast? = some '1' := suffix_getLast _ _ _ h (by decide)
  have h2 : s.data.getLast? = some '/' := suffix_getLast _ _ _ hc (by decide)
  rw [h1] at h2
  simp at h2

theorem string_append_ne_empty_left (a b : String) (h : a ≠ "") : a ++ b ≠ "" := by
  intro hc
  apply h
  have : (a ++ b).data = [] := congrArg String.data hc
  rw [String.data_append, List.append_eq_nil] at this
  exact String.ext this.1

/-- C8: for every non-empty input u, `_normalize_openai_base u` ends in
"/v1" and has no trailing slash, and the function is a fixed point on its
own output; the empty input maps to the canonical default base. -/
theorem normalizeOpenaiBase_spec (u : String) (hu : u ≠ "") :
    pyEndsWith (normalizeOpenaiBase u) "/v1" = true ∧
    pyEndsWith (normalizeOpenaiBase u) "/" = false ∧
    normalizeOpenaiBase (normalizeOpenaiBase u) = normalizeOpenaiBase u ∧
    normalizeOpenaiBase "" = DEFAULT_OPENAI_BASE := by
  have hends : pyEndsWith (normalizeOpenaiBase u) "/v1" = true := by
    rw [normalizeOpenaiBase, if_neg hu]
    by_cases h1 : pyEndsWith (if pyEndsWith u "/" then pyDropLast u else u) "/v1" = true
    · rw [if_pos h1]; exact h1
    · rw [if_neg h1]; exact pyEndsWith_append _ _
  have hslash : pyEndsWith (normalizeOpenaiBase u) "/" = false :=
    endsWith_v1_not_slash _ hends
  refine ⟨hends, hslash, ?_, rfl⟩
  have hne : normalizeOpenaiBase u ≠ "" := by
    intro hc
    rw [hc] at hends
    simp [pyEndsWith] at hends
  rw [normalizeOpenaiBase, if_neg hne]
  simp only [hslash, Bool.false_eq_true, if_false, hends, if_true]

/-- Witness for C8 at the concrete input "https://example.com". -/
theorem normalizeOpenaiBase_spec_witness :
    pyEndsWith (normalizeOpenaiBase "https://example.com") "/v1" = true ∧
    pyEndsWith (normalizeOpenaiBase "https://example.com") "/" = false ∧
    normalizeOpenaiBase (normalizeOpenaiBase "https://example.com") =
      normalizeOpenaiBase "https://example.com" ∧
    normalizeOpenaiBase "" = DEFAULT_OPENAI_BASE :=
  normalizeOpenaiBase_spec "https://example.com" (by decide)

/-! ## Conversation store (src/pyclaw/conversation.py) -/

/-- src/pyclaw/conversation.py `Conversation`: an optional summary string and
an ordered message list.  The message type is a parameter because the store
holds either wire dialect's message records. -/
structure PyConversation (msgty : Type) where
  summary : String
  messages : List msgty

/-- src/pyclaw/config.py `AutoCompactConfig`.  `threshold` is modelled as a
rational (the source compares a float quotient against it). -/
structure AutoCompactCfg where
  enabled : Bool
  threshold : ℚ
  preserveCount : Nat

/-- src/pyclaw/conversation.py `ConversationStore.should_compact`.
`contentLen m` models Python `len(str(m.get("content", "")))`. -/
def shouldCompact {msgty : Type} (cfg : AutoCompactCfg) (maxTokens : Nat)
    (contentLen : msgty → Nat) (conv : PyConversation msgty) : Bool :=
  if !cfg.enabled then false
  else
    let estimateChars := ((conv.messages.map contentLen).sum) + conv.summary.length
    let maxChars := max 2000 (maxTokens * 4 * 2)
    decide ((estimateChars : ℚ) / (maxChars : ℚ) ≥ cfg.threshold)

/-- src/pyclaw/conversation.py `ConversationStore.compact_messages`: returns
the removed prefix and the conversation retaining the last
`max(preserveCount, 1)` messages (unchanged when not longer than that). -/
def compactMessages {msgty : Type} (cfg : AutoCompactCfg) (conv : PyConversation msgty) :
    List msgty × PyConversation msgty :=
  let keep := max cfg.preserveCount 1
  if conv.messages.length ≤ keep then ([], conv)
  else (conv.messages.take (conv.messages.length - keep),
        PyConversation.mk conv.summary (conv.messages.drop (conv.messages.length - keep)))

/-- C2 counterexample: a single 7000-character message with the default
config (threshold 0.8, preserveCount 5, maxTokens 1024) triggers
`should_compact`, yet after `compact_messages` the conversation still has
1 message, not max(preserveCount, 1) = 5. -/
theorem compact_postcondition_cex :
    shouldCompact (AutoCompactCfg.mk true (4/5) 5) 1024 String.length
      (PyConversation.mk "" [String.mk (List.replicate 7000 'a')]) = true ∧
    ((compactMessages (AutoCompactCfg.mk true (4/5) 5)
      (PyConversation.mk "" [String.mk (List.replicate 7000 'a')])).2.messages.length = 1) ∧
    (1 : Nat) ≠ max 5 1 := by
  refine ⟨?_, rfl, by decide⟩
  rw [shouldCompact]
  norm_num [String.length, List.length_replicate]

/-- C2 amended: if `should_compact(conv)` holds then after
`compact_messages(conv)` the number of messages equals
min(original count, max(preserveCount, 1)): conversations not longer than
the preserved tail are left unchanged. -/
theorem compact_postcondition (cfg : AutoCompactCfg) (maxTokens : Nat)
    (contentLen : String → Nat) (conv : PyConversation String)
    (_h : shouldCompact cfg maxTokens contentLen conv = true) :
    ((compactMessages cfg conv).2.messages.length =
      min conv.messages.length (max cfg.preserveCount 1)) := by
  rw [compactMessages]
  by_cases hle : conv.messages.length ≤ max cfg.preserveCount 1
  · rw [if_pos hle]
    simp [Nat.min_eq_left hle]
  · rw [if_neg hle]
    simp only [List.length_drop]
    omega

/-- Witness for C2 amended: 7 messages of 400 characters with maxTokens 0
compact down to exactly min 7 (max 5 1) = 5 messages. -/
theorem compact_postcondition_witness :
    ((compactMessages (AutoCompactCfg.mk true (4/5) 5)
      (PyConversation.mk "" (List.replicate 7 (String.mk (List.replicate 400 'a'))))).2.messages.length =
      min (PyConversation.mk "" (List.replicate 7 (String.mk (List.replicate 400 'a')))).messages.length
        (max (AutoCompactCfg.mk true (4/5) 5).preserveCount 1)) :=
  compact_postcondition (AutoCompactCfg.mk true (4/5) 5) 0 String.length
    (PyConversation.mk "" (List.replicate 7 (String.mk (List.replicate 400 'a'))))
    (by rw [shouldCompact]
        norm_num [String.length, List.length_replicate, List.map_replicate, List.sum_replicate])

/-! ## Tool registry (src/pyclaw/tools/registry.py) -/

/-- Model of src/pyclaw/tools/local.py `LocalTools` as seen by the registry:
its tool names and an executor.  A Python exception with message e is
modelled as `Except.error e`; `args` stands for the decoded argument map. -/
structure LocalToolsModel where
  names : List String
  exec : String → String → Except String String

/-- src/pyclaw/tools/registry.py `ToolRegistry._execute_inner`: a local name
match wins; otherwise delegate to MCP when configured; otherwise the fixed
string "unknown tool". -/
def executeInner (localTools : LocalToolsModel)
    (mcpCall : Option (String → String → Except String String))
    (name args : String) : Except String String :=
  if localTools.names.contains name then localTools.exec name args
  else
    match mcpCall with
    | some call => call name args
    | none => Except.ok "unknown tool"

/-- src/pyclaw/tools/registry.py `ToolRegistry.execute`: runs the inner
executor and converts any exception into the string "error: <message>".
(The surrounding pre/post hooks never contribute to the result.) -/
def registryExecute (localTools : LocalToolsModel)
    (mcpCall : Option (String → String → Except String String))
    (name args : String) : String :=
  match executeInner localTools mcpCall name args with
  | Except.ok r => r
  | Except.error e => "error: " ++ e

/-- C7: `ToolRegistry.execute` never propagates an exception of the
underlying local or MCP tool; whenever the underlying tool raises e it
returns exactly "error: " followed by the message of e. -/
theorem tool_error_wrapping (localTools : LocalToolsModel)
    (mcpCall : Option (String → String → Except String String))
    (name args e : String)
    (h : (localTools.names.contains name = true ∧
          localTools.exec name args = Except.error e) ∨
         (localTools.names.contains name = false ∧
          ∃ call, mcpCall = some call ∧ call name args = Except.error e)) :
    registryExecute localTools mcpCall name args = "error: " ++ e := by
  rcases h with ⟨hin, hex⟩ | ⟨hout, call, hmc, hex⟩
  · have hin' : name ∈ localTools.names := by simpa using hin
    simp [registryExecute, executeInner, hin', hex]
  · subst hmc
    have hout' : ¬(name ∈ localTools.names) := by simpa using hout
    simp [registryExecute, executeInner, hout', hex]

/-- Witness for C7: a local tool "t" raising "boom" yields "error: boom". -/
theorem tool_error_wrapping_witness :
    registryExecute (LocalToolsModel.mk ["t"] (fun _ _ => Except.error "boom"))
      none "t" "{}" = "error: " ++ "boom" :=
  tool_error_wrapping (LocalToolsModel.mk ["t"] (fun _ _ => Except.error "boom"))
    none "t" "{}" "boom" (Or.inl ⟨by decide, rfl⟩)

/-! ## Channel allow-listing and the Slack event handler
(src/pyclaw/channels/base.py, src/pyclaw/channels/slack.py) -/

/-- src/pyclaw/models.py `ContentBlock`; `""` models `None`/empty (the
source only ever tests these fields for truthiness or concatenates them). -/
structure ContentBlockM where
  type : String
  data : String
  media_type : String

/-- src/pyclaw/channels/base.py `BaseChannel.is_allowed`: an empty
allow-list permits all senders, otherwise membership is required. -/
def isAllowed (allowFrom : List String) (senderId : String) : Bool :=
  if allowFrom.isEmpty then true else allowFrom.contains senderId

/-- The fields of a Slack `message` event that `_handle_events` reads;
missing or falsy fields are already collapsed to `""` as the source does
with `event.get(...) or ""`. -/
structure SlackEvent where
  type : String
  subtype : String
  user : String
  text : String
  channel : String

/-- src/pyclaw/bus.py `InboundMessage` (routing fields used here). -/
structure InboundMessageM where
  channel : String
  sender_id : String
  chat_id : String
  content : String
  blocks : List ContentBlockM

/-- src/pyclaw/channels/slack.py `SlackChannel._handle_events`, event-callback
branch after signature verification: drops non-message or subtyped events,
applies the allow-list only when the user field is non-empty, drops empty
messages and missing channels, otherwise enqueues an InboundMessage.
`downloadedBlocks` stands for the result of `_download_files`. -/
def handleSlackEvent (allowFrom : List String) (event : SlackEvent)
    (downloadedBlocks : List ContentBlockM) : Option InboundMessageM :=
  if event.type ≠ "message" || event.subtype ≠ "" then none
  else if event.user ≠ "" && !(isAllowed allowFrom event.user) then none
  else if event.text = "" && downloadedBlocks.isEmpty then none
  else if event.channel = "" then none
  else some (InboundMessageM.mk "slack" event.user event.channel event.text downloadedBlocks)

/-- C9: a signature-verified Slack message event with an empty/missing user
field is enqueued with an empty sender id regardless of the allow-list,
and the allow-list test is applied only to non-empty user fields. -/
theorem slack_allowlist_bypass (allowFrom : List String) (event : SlackEvent)
    (blocks : List ContentBlockM)
    (htype : event.type = "message") (hsub : event.subtype = "")
    (hch : event.channel ≠ "") (hcontent : event.text ≠ "" ∨ blocks ≠ []) :
    (event.user = "" →
      handleSlackEvent allowFrom event blocks =
        some (InboundMessageM.mk "slack" "" event.channel event.text blocks)) ∧
    (event.user ≠ "" → isAllowed allowFrom event.user = false →
      handleSlackEvent allowFrom event blocks = none) := by
  constructor
  · intro hu
    rw [handleSlackEvent, if_neg (by simp [htype, hsub]), if_neg (by simp [hu]),
      if_neg (by rcases hcontent with h | h <;> simp [h, List.isEmpty_iff]),
      if_neg (by simp [hch]), hu]
  · intro hu hallow
    rw [handleSlackEvent, if_neg (by simp [htype, hsub]), if_pos (by simp [hu, hallow])]

/-- Witness for C9: with allow-list ["alice"], a user-less message event in
channel "C1" with text "hi" is enqueued with sender id "". -/
theorem slack_allowlist_bypass_witness :
    handleSlackEvent ["alice"] (SlackEvent.mk "message" "" "" "hi" "C1") [] =
      some (InboundMessageM.mk "slack" "" "C1" "hi" []) :=
  (slack_allowlist_bypass ["alice"] (SlackEvent.mk "message" "" "" "hi" "C1") []
    rfl rfl (by decide) (Or.inl (by decide))).1 rfl

/-! ## Cron service (src/pyclaw/cron.py) -/

/-- src/pyclaw/cron.py `Schedule`. -/
structure CronSchedule where
  kind : String
  expr : String
  every_ms : Nat
  at_ms : Nat

/-- src/pyclaw/cron.py `Payload`. -/
structure CronPayload where
  message : String
  deliver : Bool
  channel : String
  toTarget : String

/-- src/pyclaw/cron.py `JobState`. -/
structure CronJobState where
  last_run_at_ms : Nat
  last_status : String
  last_error : String

/-- src/pyclaw/cron.py `CronJob`. -/
structure CronJob where
  id : String
  name : String
  enabled : Bool
  schedule : CronSchedule
  payload : CronPayload
  delete_after_run : Bool
  state : CronJobState

/-- src/pyclaw/cron.py `CronService._cron_due`.  `getNext expr baseMs` models
`croniter(expr, base).get_next(float)` (the external cron evaluator, in
epoch milliseconds).  The base is the last run time when one is recorded
(nonzero), otherwise the service start time. -/
def cronDue (getNext : String → Nat → Nat) (startMs : Nat) (job : CronJob)
    (nowMs : Nat) : Bool :=
  if job.schedule.expr = "" then false
  else
    let base := if job.state.last_run_at_ms ≠ 0 then job.state.last_run_at_ms else startMs
    decide (nowMs ≥ getNext job.schedule.expr base)

/-- The due test C3 describes, written from the spec's words for
comparison: the evaluator's base is the LATER of the last run time and
the service start time. -/
def cronDueFromSpec (getNext : String → Nat → Nat) (startMs : Nat) (job : CronJob)
    (nowMs : Nat) : Bool :=
  if job.schedule.expr = "" then false
  else decide (nowMs ≥ getNext job.schedule.expr (max job.state.last_run_at_ms startMs))

/-- src/pyclaw/cron.py `CronService._tick_loop`, the per-job firing
condition of one tick: the job must be enabled, and its schedule kind
selects the due test. -/
def jobFiresInTick (getNext : String → Nat → Nat) (startMs nowMs : Nat)
    (job : CronJob) : Bool :=
  job.enabled &&
    (if job.schedule.kind = "cron" then cronDue getNext startMs job nowMs
     else if job.schedule.kind = "every" then
       decide (job.schedule.every_ms > 0 ∧ nowMs ≥ job.state.last_run_at_ms + job.schedule.every_ms)
     else if job.schedule.kind = "at" then
       decide (job.schedule.at_ms > 0 ∧ nowMs ≥ job.schedule.at_ms)
     else false)

/-- An enabled cron job whose persisted last run (1 s) predates the service
start (10,000 s): used to refute C3's "later of" clause. -/
def cronJobC3 : CronJob :=
  CronJob.mk "j1" "job" true (CronSchedule.mk "cron" "* * * * *" 0 0)
    (CronPayload.mk "ping" false "" "") false (CronJobState.mk 1000 "" "")

/-- C3 counterexample: with an every-minute evaluator (next = base + 60000),
service start 10^7 ms, wall clock 10^5 ms, the job with last run 1000 ms
fires (code bases the evaluator on the nonzero last run), although the
wall clock has not reached the evaluator's next time from the later of
{last run, service start} as the claim states. -/
theorem cron_due_base_cex :
    jobFiresInTick (fun _ base => base + 60000) 10000000 100000 cronJobC3 = true ∧
    cronDueFromSpec (fun _ base => base + 60000) 10000000 cronJobC3 100000 = false := by
  constructor
  · rw [jobFiresInTick]
    norm_num [cronJobC3, cronDue]
    decide
  · rw [cronDueFromSpec]
    norm_num [cronJobC3]

/-- C3 amended: for every enabled job with a cron-expression schedule, the
tick fires the job exactly when the expression is non-empty and the wall
clock reaches or passes the evaluator's next time computed from the job's
last run time when nonzero, otherwise from the service start time; this
agrees with the spec's "later of {last run, start}" base whenever the last
run is zero or at least the start time. -/
theorem cron_due_amended (getNext : String → Nat → Nat) (startMs nowMs : Nat)
    (job : CronJob) (he : job.enabled = true) (hk : job.schedule.kind = "cron") :
    (jobFiresInTick getNext startMs nowMs job = true ↔
      (job.schedule.expr ≠ "" ∧
        nowMs ≥ getNext job.schedule.expr
          (if job.state.last_run_at_ms ≠ 0 then job.state.last_run_at_ms else startMs))) ∧
    ((job.state.last_run_at_ms = 0 ∨ job.state.last_run_at_ms ≥ startMs) →
      cronDue getNext startMs job nowMs = cronDueFromSpec getNext startMs job nowMs) := by
  constructor
  · rw [jobFiresInTick, if_pos hk, he, cronDue]
    by_cases hex : job.schedule.expr = ""
    · simp [hex]
    · simp [hex]
  · intro hbase
    rw [cronDue, cronDueFromSpec]
    by_cases hex : job.schedule.expr = ""
    · simp [hex]
    · rcases hbase with h0 | hge
      · simp [hex, h0, Nat.max_eq_right (by omega : job.state.last_run_at_ms ≤ startMs)]
      · by_cases hz : job.state.last_run_at_ms = 0
        · simp [hex, hz, Nat.max_eq_right (by omega : job.state.last_run_at_ms ≤ startMs)]
        · simp [hex, hz, Nat.max_eq_left hge]

/-- Witness for C3 amended at a concrete job: with evaluator next = base,
start 0 and clock 5, the firing test reduces as stated. -/
theorem cron_due_amended_witness :
    (jobFiresInTick (fun _ base => base) 0 5 cronJobC3 = true ↔
      (cronJobC3.schedule.expr ≠ "" ∧
        5 ≥ (fun (_ : String) (base : Nat) => base) cronJobC3.schedule.expr
          (if cronJobC3.state.last_run_at_ms ≠ 0 then cronJobC3.state.last_run_at_ms else 0))) ∧
    ((cronJobC3.state.last_run_at_ms = 0 ∨ cronJobC3.state.last_run_at_ms ≥ 0) →
      cronDue (fun _ base => base) 0 cronJobC3 5 =
        cronDueFromSpec (fun _ base => base) 0 cronJobC3 5) :=
  cron_due_amended (fun _ base => base) 0 5 cronJobC3 rfl rfl

/-! ## Slack signature verification (src/pyclaw/channels/slack.py) -/

/-- Value of a non-empty all-digit character list, else `none`. -/
def decDigitsVal : List Char → Option Nat
  | [] => none
  | l =>
    if l.all Char.isDigit then
      some (l.foldl (fun acc c => acc * 10 + (c.toNat - 48)) 0)
    else none

/-- Python `int(s)` on canonical integer literals (optional sign, decimal
digits); anything else is modelled as the `ValueError` branch (`none`). -/
def pyParseInt (s : String) : Option Int :=
  match s.data with
  | '-' :: rest => (decDigitsVal rest).map (fun n => -(n : Int))
  | '+' :: rest => (decDigitsVal rest).map (fun n => (n : Int))
  | l => (decDigitsVal l).map (fun n => (n : Int))

/-- src/pyclaw/channels/slack.py `SlackChannel._verify_signature`:
reject missing headers, non-integer timestamps and skew over 300 s;
otherwise constant-time-compare the header against
"v0=" ++ HMAC-SHA256-hex(secret, "v0:<ts>:<body>").  `hmacSha256Hex`
models the stdlib `hmac`/`hashlib` computation. -/
def verifySlackSignature (hmacSha256Hex : String → String → String)
    (signingSecret : String) (nowSec : Int) (ts sig body : String) : Bool :=
  if ts = "" || sig = "" then false
  else
    match pyParseInt ts with
    | none => false
    | some tsInt =>
      if (nowSec - tsInt).natAbs > 60 * 5 then false
      else ("v0=" ++ hmacSha256Hex signingSecret ("v0:" ++ ts ++ ":" ++ body)) == sig

/-- C4: for every body B, timestamp header T (parsing as an integer) and
signature header S, verification rejects whenever the skew between the
clock and T exceeds 300 s, and otherwise accepts exactly when S equals
"v0=" followed by the HMAC-SHA256 hex of "v0:<T>:<B>" under the secret. -/
theorem slack_signature_spec (hmacSha256Hex : String → String → String)
    (secret : String) (nowSec tsVal : Int) (T S B : String)
    (hT : pyParseInt T = some tsVal) :
    ((nowSec - tsVal).natAbs > 300 →
      verifySlackSignature hmacSha256Hex secret nowSec T S B = false) ∧
    ((nowSec - tsVal).natAbs ≤ 300 →
      (verifySlackSignature hmacSha256Hex secret nowSec T S B = true ↔
        S = "v0=" ++ hmacSha256Hex secret ("v0:" ++ T ++ ":" ++ B))) := by
  have hTne : T ≠ "" := by
    intro h
    rw [h] at hT
    have hnone : pyParseInt "" = none := rfl
    rw [hnone] at hT
    exact Option.noConfusion hT
  by_cases hS : S = ""
  · constructor
    · intro _
      rw [verifySlackSignature, if_pos (by simp [hS])]
    · intro _
      rw [verifySlackSignature, if_pos (by simp [hS])]
      constructor
      · intro hfalse
        exact absurd hfalse (by simp)
      · intro heq
        exact absurd (heq.symm.trans hS)
          (string_append_ne_empty_left "v0=" _ (by decide))
  · have hguard : (decide (T = "") || decide (S = "")) = false := by
      simp [hTne, hS]
    constructor
    · intro hskew
      rw [verifySlackSignature]
      simp only [hguard, Bool.false_eq_true, if_false, hT]
      rw [if_pos (by omega)]
    · intro hskew
      rw [verifySlackSignature]
      simp only [hguard, Bool.false_eq_true, if_false, hT]
      rw [if_neg (by omega)]
      exact ⟨fun h => (beq_iff_eq.mp h).symm, fun h => beq_iff_eq.mpr h.symm⟩

/-- Witness for C4: skew 100 s and a matching signature is accepted. -/
theorem slack_signature_spec_witness :
    ((1000 - 900 : Int).natAbs ≤ 300) ∧
    verifySlackSignature (fun _ _ => "d34d") "s" 1000 "900" "v0=d34d" "b" = true :=
  ⟨by decide,
    ((slack_signature_spec (fun _ _ => "d34d") "s" 1000 900 "900" "v0=d34d" "b"
      (by decide)).2 (by decide)).mpr rfl⟩

/-! ## Runtime provider clients (src/pyclaw/runtime.py) -/

/-- JSON values as returned by `resp.json()`. -/
inductive Json where
  | null
  | bool (b : Bool)
  | num (n : Int)
  | str (s : String)
  | arr (items : List Json)
  | obj (fields : List (String × Json))

/-- Python `data[k]` / `data.get(k)` on a JSON object. -/
def Json.getField? : Json → String → Option Json
  | Json.obj fields, k => fields.lookup k
  | _, _ => none

/-- Python `data[i]` on a JSON array. -/
def Json.getIdx? : Json → Nat → Option Json
  | Json.arr items, i => items.get? i
  | _, _ => none

/-- Python truthiness of a JSON value (the source's `x or default`). -/
def Json.isTruthy : Json → Bool
  | Json.null => false
  | Json.bool b => b
  | Json.num n => decide (n ≠ 0)
  | Json.str s => decide (s ≠ "")
  | Json.arr items => !items.isEmpty
  | Json.obj fields => !fields.isEmpty

/-- Python `j.get(k, "")` when a string is expected (non-strings yield the
default; the callers below only feed the result to string operations). -/
def jStrField (j : Json) (k dflt : String) : String :=
  match j.getField? k with
  | some (Json.str s) => s
  | _ => dflt

/-- `data.get("usage", {}) or {}` as it appears in every client method. -/
def usageField (data : Json) : Json :=
  match data.getField? "usage" with
  | some u => if u.isTruthy then u else Json.obj []
  | none => Json.obj []

/-- An HTTP response as the clients see it: `resp.status_code`,
`resp.text`, and the parsed `resp.json()`. -/
structure HttpResponse where
  status : Nat
  text : String
  body : Json

/-- A raised Python exception: the source's `RuntimeError` (the typed
runtime failure) or any other uncaught exception (KeyError etc.). -/
inductive PyErr where
  | runtimeFailure (msg : String)
  | pyException (msg : String)

/-- src/pyclaw/runtime.py `OpenAICompatClient.chat`, from the response on:
status >= 400 raises the typed failure with status and body; then
`data["choices"][0]["message"]["content"].strip()` under try/except, any
failure raising the parse-error kind (its message elides the Python
exception text). -/
def openaiChat (resp : HttpResponse) : Except PyErr (String × Json) :=
  if resp.status ≥ 400 then
    Except.error (PyErr.runtimeFailure
      ("openai-compatible error: " ++ toString resp.status ++ " " ++ resp.text))
  else
    match ((resp.body.getField? "choices").bind (fun c => c.getIdx? 0)).bind
        (fun m => (m.getField? "message").bind (fun m2 => m2.getField? "content")) with
    | some (Json.str s) => Except.ok (pyStrip s, usageField resp.body)
    | _ => Except.error (PyErr.runtimeFailure "openai-compatible parse error")

/-- src/pyclaw/runtime.py `OpenAICompatClient.chat_with_tools`, from the
response on: status >= 400 raises the typed failure; the message lookup is
NOT wrapped in try/except, so a missing path raises a plain Python
exception; `content or ""` is stripped (a truthy non-string raises), and
`tool_calls or []` keeps an array or collapses falsy values to []. -/
def openaiChatWithTools (resp : HttpResponse) :
    Except PyErr (String × List Json × Json) :=
  if resp.status ≥ 400 then
    Except.error (PyErr.runtimeFailure
      ("openai-compatible error: " ++ toString resp.status ++ " " ++ resp.text))
  else
    match ((resp.body.getField? "choices").bind (fun c => c.getIdx? 0)).bind
        (fun m => m.getField? "message") with
    | none => Except.error (PyErr.pyException "key error")
    | some msg =>
      let contentRes : Except PyErr String :=
        match msg.getField? "content" with
        | some j =>
          if j.isTruthy then
            match j with
            | Json.str s => Except.ok (pyStrip s)
            | _ => Except.error (PyErr.pyException "strip on non-string")
          else Except.ok ""
        | none => Except.ok ""
      match contentRes with
      | Except.error e => Except.error e
      | Except.ok content =>
        let toolCalls : List Json :=
          match msg.getField? "tool_calls" with
          | some (Json.arr xs) => xs
          | _ => []
        Except.ok (content, toolCalls, usageField resp.body)

/-- src/pyclaw/runtime.py `_extract_response_text`. -/
def extractResponseText (data : Json) : String :=
  let output := match data.getField? "output" with
    | some (Json.arr xs) => xs
    | _ => []
  let parts := output.foldr (fun item acc =>
    (if jStrField item "type" "" = "output_text" then [jStrField item "text" ""] else []) ++
    (if jStrField item "type" "" = "message" then
      (match item.getField? "content" with
        | some (Json.arr cs) => cs.filterMap (fun c =>
            if jStrField c "type" "" = "output_text" then some (jStrField c "text" "")
            else none)
        | _ => [])
      else []) ++ acc) []
  pyStrip (pyJoin "\n" parts)

/-- src/pyclaw/runtime.py `OpenAICompatClient.respond_with_files`, from the
uploads on: `fileIds` stands for the ids collected by `_upload_file` (which
returns "" instead of raising on upload errors); with no ids the method
returns ("", {}) without calling the responses endpoint; otherwise a
status >= 400 responses reply raises the typed failure. -/
def respondWithFiles (fileIds : List String) (resp : HttpResponse) :
    Except PyErr (String × Json) :=
  if fileIds.isEmpty then Except.ok ("", Json.obj [])
  else if resp.status ≥ 400 then
    Except.error (PyErr.runtimeFailure
      ("openai responses error: " ++ toString resp.status ++ " " ++ resp.text))
  else Except.ok (extractResponseText resp.body, usageField resp.body)

/-- src/pyclaw/runtime.py `_normalize_anthropic_usage`. -/
def normalizeAnthropicUsage (usage : Json) : Json :=
  if !usage.isTruthy then Json.obj []
  else
    let p := match usage.getField? "input_tokens" with
      | some (Json.num n) => n
      | _ => 0
    let c := match usage.getField? "output_tokens" with
      | some (Json.num n) => n
      | _ => 0
    Json.obj [("prompt_tokens", Json.num p), ("completion_tokens", Json.num c),
      ("total_tokens", Json.num (p + c))]

/-- The joined text of `data.get("content", [])` in `AnthropicClient.chat`:
`none` models the non-iterable / non-dict cases whose exception the
try/except converts into the parse-error kind. -/
def anthropicJoinedText (data : Json) : Option String :=
  match data.getField? "content" with
  | some (Json.arr blocks) =>
    some (pyStrip (pyJoin "" (blocks.map (fun b => jStrField b "text" ""))))
  | none => some ""
  | some _ => none

/-- src/pyclaw/runtime.py `AnthropicClient.chat`, from the response on:
status >= 400 raises the typed failure with status and body; the content
join is under try/except raising the parse-error kind. -/
def anthropicChat (resp : HttpResponse) : Except PyErr (String × Json) :=
  if resp.status ≥ 400 then
    Except.error (PyErr.runtimeFailure
      ("anthropic error: " ++ toString resp.status ++ " " ++ resp.text))
  else
    match anthropicJoinedText resp.body with
    | some s => Except.ok (s, normalizeAnthropicUsage (usageField resp.body))
    | none => Except.error (PyErr.runtimeFailure "anthropic parse error")

/-- src/pyclaw/runtime.py `AnthropicClient.chat_with_tools`, from the
response on: status >= 400 raises the typed failure; the block filtering is
not wrapped, so a non-list content raises a plain Python exception. -/
def anthropicChatWithTools (resp : HttpResponse) :
    Except PyErr (String × List Json × Json) :=
  if resp.status ≥ 400 then
    Except.error (PyErr.runtimeFailure
      ("anthropic error: " ++ toString resp.status ++ " " ++ resp.text))
  else
    match resp.body.getField? "content" with
    | some (Json.arr blocks) =>
      let toolCalls := blocks.filter (fun b => jStrField b "type" "" = "tool_use")
      let text := pyStrip (pyJoin "" ((blocks.filter (fun b => jStrField b "type" "" = "text")).map
        (fun b => jStrField b "text" "")))
      Except.ok (text, toolCalls, normalizeAnthropicUsage (usageField resp.body))
    | none =>
      Except.ok ("", [], normalizeAnthropicUsage (usageField resp.body))
    | some _ => Except.error (PyErr.pyException "content not iterable")

/-- C5 counterexample: a 301 response (outside the 2xx range) does not
raise on the chat path; with a well-formed body it parses and returns
normally, refuting "any non-2xx status causes a typed runtime failure". -/
theorem provider_http_error_cex :
    openaiChat (HttpResponse.mk 301 "moved"
      (Json.obj [("choices", Json.arr [Json.obj [("message",
        Json.obj [("content", Json.str "hi")])]])])) =
      Except.ok ("hi", Json.obj []) ∧
    ¬(200 ≤ 301 ∧ 301 ≤ 299) := by
  constructor
  · rfl
  · decide

/-- C5 amended: every runtime client call (OpenAI-compatible chat,
chat_with_tools and responses, Anthropic chat and chat_with_tools) raises
the typed runtime failure, carrying the status code and response body,
exactly for statuses >= 400 (2xx and 3xx proceed to parsing); no retry
exists in these functions. -/
theorem provider_http_error (resp : HttpResponse) (h : resp.status ≥ 400) :
    openaiChat resp = Except.error (PyErr.runtimeFailure
      ("openai-compatible error: " ++ toString resp.status ++ " " ++ resp.text)) ∧
    openaiChatWithTools resp = Except.error (PyErr.runtimeFailure
      ("openai-compatible error: " ++ toString resp.status ++ " " ++ resp.text)) ∧
    (∀ fileIds : List String, fileIds ≠ [] →
      respondWithFiles fileIds resp = Except.error (PyErr.runtimeFailure
        ("openai responses error: " ++ toString resp.status ++ " " ++ resp.text))) ∧
    anthropicChat resp = Except.error (PyErr.runtimeFailure
      ("anthropic error: " ++ toString resp.status ++ " " ++ resp.text)) ∧
    anthropicChatWithTools resp = Except.error (PyErr.runtimeFailure
      ("anthropic error: " ++ toString resp.status ++ " " ++ resp.text)) := by
  refine ⟨?_, ?_, ?_, ?_, ?_⟩
  · rw [openaiChat, if_pos h]
  · rw [openaiChatWithTools, if_pos h]
  · intro fileIds hne
    rw [respondWithFiles, if_neg (by simp [List.isEmpty_iff, hne]), if_pos h]
  · rw [anthropicChat, if_pos h]
  · rw [anthropicChatWithTools, if_pos h]

/-- Witness for C5 amended at a concrete 500 response. -/
theorem provider_http_error_witness :
    openaiChat (HttpResponse.mk 500 "boom" Json.null) =
      Except.error (PyErr.runtimeFailure
        ("openai-compatible error: " ++ toString (500 : Nat) ++ " " ++ "boom")) :=
  (provider_http_error (HttpResponse.mk 500 "boom" Json.null) (by decide)).1

/-! ## Agent transcript model (src/pyclaw/agent.py, src/pyclaw/conversation.py) -/

/-- src/pyclaw/skills.py `Skill` (source_path omitted; unused by matching). -/
structure SkillM where
  name : String
  description : String
  keywords : List String
  body : String

/-- Python `needle in hay` on strings (substring containment). -/
def strContainsSub (hay needle : String) : Bool :=
  (List.range (hay.data.length + 1)).any (fun i => needle.data.isPrefixOf (hay.data.drop i))

/-- src/pyclaw/skills.py `match_skills`: a skill matches when it has
keywords and some keyword occurs in the lowercased message. -/
def matchSkills (skills : List SkillM) (message : String) : List SkillM :=
  let msg := message.toLower
  skills.filter (fun s => !s.keywords.isEmpty && s.keywords.any (fun k => strContainsSub msg k))

/-- The per-runner inputs of `AgentRunner._build_system_prompt`: the base
persona prompt, memory context, configured MCP server names and loaded
skills. -/
structure AgentCtx where
  basePrompt : String
  memoryContext : String
  mcpServerNames : List String
  skills : List SkillM

/-- The `parts` list of src/pyclaw/agent.py `AgentRunner._build_system_prompt`
before the summary entry: base prompt, memory context, MCP server list and
matching skill blocks, each appended only when non-empty. -/
def promptPartsPre (ctx : AgentCtx) (message : String) : List String :=
  let parts : List String := if ctx.basePrompt ≠ "" then [ctx.basePrompt] else []
  let parts := if ctx.memoryContext ≠ "" then parts ++ [ctx.memoryContext] else parts
  let parts := if !ctx.mcpServerNames.isEmpty
    then parts ++ ["# MCP Servers\n" ++ pyJoin "\n" ctx.mcpServerNames] else parts
  let matched := matchSkills ctx.skills message
  let skillBlocks := (matched.filter (fun s => s.body ≠ "")).map
    (fun s => "# Skill: " ++ s.name ++ "\n" ++ s.body)
  if !matched.isEmpty && !skillBlocks.isEmpty
    then parts ++ [pyJoin "\n\n" skillBlocks] else parts

/-- src/pyclaw/agent.py `AgentRunner._build_system_prompt`: the parts plus
a final "# Summary\n<summary>" entry when the summary is non-empty, joined
with blank lines (empty parts filtered). -/
def buildSystemPrompt (ctx : AgentCtx) (message summary : String) : String :=
  let parts := promptPartsPre ctx message
  let parts := if summary ≠ "" then parts ++ ["# Summary\n" ++ summary] else parts
  pyJoin "\n\n" (parts.filter (fun p => p ≠ ""))

/-- One part of a multi-part OpenAI user message. -/
inductive OAPart where
  | text (s : String)
  | imageUrl (url : String)

/-- An OpenAI tool call as the runner reads it: `call.get("id", "")`,
`(call.get("function") or {}).get("name")` (both collapsing missing to ""),
and the raw `arguments` string. -/
structure OAToolCall where
  id : String
  name : String
  args : String

/-- OpenAI-dialect message content: a bare string or a part list. -/
inductive OAContent where
  | str (s : String)
  | parts (ps : List OAPart)

/-- An entry of `Conversation.messages` on the OpenAI path
(src/pyclaw/conversation.py `add_user` / `add_assistant` /
`add_assistant_tool_calls` / `add_tool`, plus the `system` entries
`to_openai_messages` prepends). -/
inductive OAMsg where
  | system (content : String)
  | user (content : OAContent)
  | assistant (content : String)
  | assistantToolCalls (content : String) (tool_calls : List OAToolCall)
  | tool (tool_call_id : String) (name : String) (content : String)

/-- src/pyclaw/conversation.py `Conversation.to_openai_messages`: the
system prompt, then a second system message "# Summary\n<summary>" when the
summary is non-empty, then the stored messages. -/
def toOpenaiMessages (conv : PyConversation OAMsg) (systemPrompt : String) : List OAMsg :=
  OAMsg.system systemPrompt ::
    ((if conv.summary ≠ "" then [OAMsg.system ("# Summary\n" ++ conv.summary)] else []) ++
      conv.messages)

theorem pyJoin_append_singleton (sep x : String) :
    ∀ l : List String, ∃ pre, pyJoin sep (l ++ [x]) = pre ++ x := by
  intro l
  induction l with
  | nil =>
    refine ⟨"", ?_⟩
    rw [List.nil_append]
    show x = "" ++ x
    apply String.ext
    rw [String.data_append]
    rfl
  | cons a l ih =>
    obtain ⟨pre, hp⟩ := ih
    cases l with
    | nil =>
      refine ⟨a ++ sep, ?_⟩
      show a ++ sep ++ x = a ++ sep ++ x
      rfl
    | cons b l2 =>
      refine ⟨a ++ sep ++ pre, ?_⟩
      show a ++ sep ++ pyJoin sep (b :: (l2 ++ [x])) = a ++ sep ++ pre ++ x
      rw [show (b :: (l2 ++ [x])) = (b :: l2) ++ [x] from rfl, hp,
        String.append_assoc, String.append_assoc, String.append_assoc]

/-- C10: with a non-empty summary, the OpenAI-path message list contains
the summary twice: once as the suffix "# Summary\n<summary>" of the first
system message built by `_build_system_prompt`, and again as the separate
second system message "# Summary\n<summary>" added by
`to_openai_messages`. -/
theorem summary_duplication (ctx : AgentCtx) (message : String)
    (conv : PyConversation OAMsg) (h : conv.summary ≠ "") :
    toOpenaiMessages conv (buildSystemPrompt ctx message conv.summary) =
      OAMsg.system (buildSystemPrompt ctx message conv.summary) ::
      OAMsg.system ("# Summary\n" ++ conv.summary) :: conv.messages ∧
    ∃ pre, buildSystemPrompt ctx message conv.summary =
      pre ++ ("# Summary\n" ++ conv.summary) := by
  constructor
  · rw [toOpenaiMessages, if_pos h]
    rfl
  · rw [buildSystemPrompt]
    simp only [h, ne_eq, not_false_eq_true, if_true, ite_true]
    have hxne : ("# Summary\n" ++ conv.summary) ≠ "" :=
      string_append_ne_empty_left "# Summary\n" conv.summary (by decide)
    rw [List.filter_append, show (["# Summary\n" ++ conv.summary].filter (fun p => p ≠ "")) =
      ["# Summary\n" ++ conv.summary] from by simp [List.filter, hxne]]
    exact pyJoin_append_singleton "\n\n" ("# Summary\n" ++ conv.summary)
      ((promptPartsPre ctx message).filter (fun p => p ≠ ""))

/-- Witness for C10 at concrete inputs: base prompt "base", summary "facts". -/
theorem summary_duplication_witness :
    toOpenaiMessages (PyConversation.mk "facts" [])
        (buildSystemPrompt (AgentCtx.mk "base" "" [] []) "hi" "facts") =
      OAMsg.system (buildSystemPrompt (AgentCtx.mk "base" "" [] []) "hi" "facts") ::
      OAMsg.system ("# Summary\n" ++ "facts") :: [] ∧
    ∃ pre, buildSystemPrompt (AgentCtx.mk "base" "" [] []) "hi" "facts" =
      pre ++ ("# Summary\n" ++ "facts") :=
  summary_duplication (AgentCtx.mk "base" "" [] []) "hi"
    (PyConversation.mk "facts" []) (by decide)

/-- src/pyclaw/agent.py `AgentRunner.run`, user-turn construction on the
OpenAI path (provider type other than "anthropic"): a bare string without
blocks, otherwise a part list with the prompt text, a data-URL image part
per usable image block, and a "[document]" text part per document block. -/
def oaUserContent (prompt : String) (blocks : List ContentBlockM) : OAContent :=
  if blocks.isEmpty then OAContent.str prompt
  else OAContent.parts (OAPart.text prompt :: blocks.filterMap (fun b =>
    if b.type = "image" && b.data ≠ "" && b.media_type ≠ "" then
      some (OAPart.imageUrl ("data:" ++ b.media_type ++ ";base64," ++ b.data))
    else if b.type = "document" then some (OAPart.text "[document]")
    else none))

/-- src/pyclaw/agent.py lines 130-137: the document side-channel notes are
appended to the last message: as an extra text part when its content is a
list, as string concatenation otherwise.  (The source's f-strings contain
the literal two-character sequence backslash-n, reproduced here.) -/
def updateMsgDocContext (docContext : String) : OAMsg → OAMsg
  | OAMsg.user (OAContent.parts ps) =>
      OAMsg.user (OAContent.parts (ps ++ [OAPart.text ("[Document context]\\n" ++ pyStrip docContext)]))
  | OAMsg.user (OAContent.str s) =>
      OAMsg.user (OAContent.str (s ++ "\\n\\n[Document context]\\n" ++ pyStrip docContext))
  | OAMsg.system s => OAMsg.system (s ++ "\\n\\n[Document context]\\n" ++ pyStrip docContext)
  | OAMsg.assistant s => OAMsg.assistant (s ++ "\\n\\n[Document context]\\n" ++ pyStrip docContext)
  | OAMsg.assistantToolCalls s cs =>
      OAMsg.assistantToolCalls (s ++ "\\n\\n[Document context]\\n" ++ pyStrip docContext) cs
  | OAMsg.tool i n s => OAMsg.tool i n (s ++ "\\n\\n[Document context]\\n" ++ pyStrip docContext)

/-- The document pre-extraction step: when the side-channel returned a
non-empty `docContext` (failures and absence are ""), the last message is
updated in place. -/
def appendDocContext (docContext : String) (msgs : List OAMsg) : List OAMsg :=
  if docContext = "" then msgs
  else
    match msgs.getLast? with
    | none => msgs
    | some m => msgs.dropLast ++ [updateMsgDocContext docContext m]

/-- src/pyclaw/agent.py `AgentRunner._maybe_compact`: when `should_compact`
holds, compact and (if a prefix was removed) store the stripped summarizer
output `summaryText` as the new summary. -/
def maybeCompact {msgty : Type} (acCfg : AutoCompactCfg) (maxTokens : Nat)
    (contentLen : msgty → Nat) (summaryText : String)
    (conv : PyConversation msgty) : PyConversation msgty :=
  if shouldCompact acCfg maxTokens contentLen conv then
    let res := compactMessages acCfg conv
    if res.1.isEmpty then res.2
    else PyConversation.mk (pyStrip summaryText) res.2.messages
  else conv

/-- One OpenAI tool-round reply: the stripped assistant text and the
`tool_calls` list handed back by `Runtime.openai_with_tools`. -/
structure OAResp where
  text : String
  tool_calls : List OAToolCall

/-- src/pyclaw/agent.py lines 214-226: the tool-result turns appended for
one batch of OpenAI tool calls.  Calls without a function name are skipped
(`if not name: continue`); `exec` models
`ToolRegistry.execute(name, json-decoded args)`. -/
def oaToolResults (exec : String → String → String) (calls : List OAToolCall) : List OAMsg :=
  calls.filterMap (fun c =>
    if c.name = "" then none
    else some (OAMsg.tool c.id c.name (exec c.name c.args)))

/-- The fixed fallback returned on iteration exhaustion
(src/pyclaw/agent.py line 234). -/
def maxIterationsFallback : String := "Sorry, I reached the maximum tool iterations."

/-- src/pyclaw/agent.py lines 199-232, the OpenAI tool loop: each round
consumes the next provider reply (`responses k`); tool calls append the
assistant turn plus its tool results and iterate; non-empty text appends a
final assistant turn and returns it; an empty text-only reply iterates. -/
def oaLoop (exec : String → String → String) (responses : Nat → OAResp) :
    Nat → Nat → List OAMsg → List OAMsg × Option String
  | 0, _, msgs => (msgs, none)
  | fuel+1, k, msgs =>
    let r := responses k
    if !r.tool_calls.isEmpty then
      oaLoop exec responses fuel (k+1)
        (msgs ++ OAMsg.assistantToolCalls r.text r.tool_calls :: oaToolResults exec r.tool_calls)
    else if r.text ≠ "" then (msgs ++ [OAMsg.assistant r.text], some r.text)
    else oaLoop exec responses fuel (k+1) msgs

/-- The runner inputs that stay fixed across one `AgentRunner.run` call:
the iteration budget and whether `list_definitions()` is non-empty. -/
structure AgentRunCfg where
  maxToolIterations : Nat
  hasTools : Bool

/-- src/pyclaw/agent.py `AgentRunner.run` on the OpenAI path, as a function
of the externalities: `exec` (tool registry), `responses` (provider
replies per round), `docContext` (document side-channel notes, "" when
absent or failed), `summaryText` (summarizer reply), `contentLen` (the
str() length of a stored message, used by should_compact).  Returns the
final conversation and the returned string.  `oaRunCore` is the part after
the user turn, document context and compaction: the tool loop when tools
are defined, otherwise the single plain chat (non-empty text returns, an
empty reply breaks to the fallback). -/
def oaRunCore (cfg : AgentRunCfg) (exec : String → String → String)
    (responses : Nat → OAResp) (conv1 : PyConversation OAMsg) :
    PyConversation OAMsg × String :=
  if cfg.hasTools then
    let res := oaLoop exec responses (max 1 cfg.maxToolIterations) 0 conv1.messages
    match res.2 with
    | some t => (PyConversation.mk conv1.summary res.1, t)
    | none => (PyConversation.mk conv1.summary res.1, maxIterationsFallback)
  else
    let r := responses 0
    if r.text ≠ "" then
      (PyConversation.mk conv1.summary (conv1.messages ++ [OAMsg.assistant r.text]), r.text)
    else (conv1, maxIterationsFallback)

def oaAgentRun (cfg : AgentRunCfg) (acCfg : AutoCompactCfg) (maxTokens : Nat)
    (contentLen : OAMsg → Nat) (exec : String → String → String)
    (responses : Nat → OAResp) (docContext summaryText : String)
    (conv : PyConversation OAMsg) (prompt : String) (blocks : List ContentBlockM) :
    PyConversation OAMsg × String :=
  let msgs := conv.messages ++ [OAMsg.user (oaUserContent prompt blocks)]
  let msgs := if (blocks.filter (fun b => b.type = "document")).isEmpty then msgs
              else appendDocContext docContext msgs
  let conv1 := maybeCompact acCfg maxTokens contentLen summaryText
    (PyConversation.mk conv.summary msgs)
  oaRunCore cfg exec responses conv1

/-- An Anthropic content block as stored in the conversation. -/
inductive ABlock where
  | text (s : String)
  | image (media_type : String) (data : String)
  | document (media_type : String) (data : String)
  | toolUse (id : String) (name : String) (input : String)
  | toolResult (tool_use_id : String) (content : String)

/-- An entry of `Conversation.messages` on the Anthropic path. -/
inductive AMsg where
  | user (content : String)
  | userBlocks (blocks : List ABlock)
  | assistant (content : String)
  | assistantBlocks (blocks : List ABlock)

/-- src/pyclaw/agent.py lines 81-98: the Anthropic user turn: a bare string
without blocks, otherwise a block list with the prompt text and one native
image/document block per usable attachment. -/
def anthUserContent (prompt : String) (blocks : List ContentBlockM) : AMsg :=
  if blocks.isEmpty then AMsg.user prompt
  else AMsg.userBlocks (ABlock.text prompt :: blocks.filterMap (fun b =>
    if b.type = "image" && b.data ≠ "" && b.media_type ≠ "" then
      some (ABlock.image b.media_type b.data)
    else if b.type = "document" && b.data ≠ "" && b.media_type ≠ "" then
      some (ABlock.document b.media_type b.data)
    else none))

/-- A `tool_use` block as the runner reads it (missing name/id collapse
to ""); `input` models the argument object. -/
structure AToolUse where
  id : String
  name : String
  input : String

/-- One Anthropic tool-round reply from `Runtime.anthropic_with_tools`:
joined text blocks and the raw tool_use blocks. -/
structure AResp where
  text : String
  tool_calls : List AToolUse

/-- src/pyclaw/agent.py lines 185-192: tool-result turns for one batch of
Anthropic tool calls: one user turn holding a single tool_result block per
call, skipping calls with a missing name or id. -/
def anthToolResults (exec : String → String → String) (calls : List AToolUse) : List AMsg :=
  calls.filterMap (fun c =>
    if c.name = "" || c.id = "" then none
    else some (AMsg.userBlocks [ABlock.toolResult c.id (exec c.name c.input)]))

/-- src/pyclaw/agent.py lines 165-198, the Anthropic tool loop: a reply
with tool calls appends the assistant block turn (text block first when
non-empty, then the tool_use blocks) and its tool-result turns, then
iterates; non-empty text returns; an empty text-only reply iterates. -/
def anthLoop (exec : String → String → String) (responses : Nat → AResp) :
    Nat → Nat → List AMsg → List AMsg × Option String
  | 0, _, msgs => (msgs, none)
  | fuel+1, k, msgs =>
    let r := responses k
    if !r.tool_calls.isEmpty then
      anthLoop exec responses fuel (k+1)
        (msgs ++ AMsg.assistantBlocks
            ((if r.text ≠ "" then [ABlock.text r.text] else []) ++
              r.tool_calls.map (fun c => ABlock.toolUse c.id c.name c.input)) ::
          anthToolResults exec r.tool_calls)
    else if r.text ≠ "" then (msgs ++ [AMsg.assistant r.text], some r.text)
    else anthLoop exec responses fuel (k+1) msgs

/-- src/pyclaw/agent.py `AgentRunner.run` on the Anthropic path, the part
after the user turn and compaction (mirrors `oaRunCore`). -/
def anthRunCore (cfg : AgentRunCfg) (exec : String → String → String)
    (responses : Nat → AResp) (conv1 : PyConversation AMsg) :
    PyConversation AMsg × String :=
  if cfg.hasTools then
    let res := anthLoop exec responses (max 1 cfg.maxToolIterations) 0 conv1.messages
    match res.2 with
    | some t => (PyConversation.mk conv1.summary res.1, t)
    | none => (PyConversation.mk conv1.summary res.1, maxIterationsFallback)
  else
    let r := responses 0
    if r.text ≠ "" then
      (PyConversation.mk conv1.summary (conv1.messages ++ [AMsg.assistant r.text]), r.text)
    else (conv1, maxIterationsFallback)

/-- src/pyclaw/agent.py `AgentRunner.run` on the Anthropic path (the
document side-channel only runs for provider "openai"). -/
def anthAgentRun (cfg : AgentRunCfg) (acCfg : AutoCompactCfg) (maxTokens : Nat)
    (contentLen : AMsg → Nat) (exec : String → String → String)
    (responses : Nat → AResp) (summaryText : String)
    (conv : PyConversation AMsg) (prompt : String) (blocks : List ContentBlockM) :
    PyConversation AMsg × String :=
  let msgs := conv.messages ++ [anthUserContent prompt blocks]
  let conv1 := maybeCompact acCfg maxTokens contentLen summaryText
    (PyConversation.mk conv.summary msgs)
  anthRunCore cfg exec responses conv1

theorem oaLoop_some (exec : String → String → String) (responses : Nat → OAResp) :
    ∀ fuel k msgs msgs2 t,
      oaLoop exec responses fuel k msgs = (msgs2, some t) →
      t ≠ "" ∧ msgs2.getLast? = some (OAMsg.assistant t) := by
  intro fuel
  induction fuel with
  | zero =>
    intro k msgs msgs2 t h
    rw [oaLoop] at h
    exact absurd (congrArg Prod.snd h) (by simp)
  | succ fuel ih =>
    intro k msgs msgs2 t h
    rw [oaLoop] at h
    by_cases hc : (responses k).tool_calls.isEmpty
    · simp only [hc, Bool.not_true, Bool.false_eq_true, if_false] at h
      by_cases htxt : (responses k).text = ""
      · simp only [htxt, ne_eq, not_true_eq_false, if_false] at h
        exact ih (k+1) msgs msgs2 t h
      · simp only [htxt, ne_eq, not_false_eq_true, if_true] at h
        have h1 := congrArg Prod.fst h
        have h2 := congrArg Prod.snd h
        simp only at h1 h2
        obtain rfl : (responses k).text = t := Option.some.inj h2
        refine ⟨htxt, ?_⟩
        rw [← h1, List.getLast?_append]
        rfl
    · simp only [hc, Bool.not_false, if_true] at h
      exact ih (k+1) _ msgs2 t h

theorem anthLoop_some (exec : String → String → String) (responses : Nat → AResp) :
    ∀ fuel k msgs msgs2 t,
      anthLoop exec responses fuel k msgs = (msgs2, some t) →
      t ≠ "" ∧ msgs2.getLast? = some (AMsg.assistant t) := by
  intro fuel
  induction fuel with
  | zero =>
    intro k msgs msgs2 t h
    rw [anthLoop] at h
    exact absurd (congrArg Prod.snd h) (by simp)
  | succ fuel ih =>
    intro k msgs msgs2 t h
    rw [anthLoop] at h
    by_cases hc : (responses k).tool_calls.isEmpty
    · simp only [hc, Bool.not_true, Bool.false_eq_true, if_false] at h
      by_cases htxt : (responses k).text = ""
      · simp only [htxt, ne_eq, not_true_eq_false, if_false] at h
        exact ih (k+1) msgs msgs2 t h
      · simp only [htxt, ne_eq, not_false_eq_true, if_true] at h
        have h1 := congrArg Prod.fst h
        have h2 := congrArg Prod.snd h
        simp only at h1 h2
        obtain rfl : (responses k).text = t := Option.some.inj h2
        refine ⟨htxt, ?_⟩
        rw [← h1, List.getLast?_append]
        rfl
    · simp only [hc, Bool.not_false, if_true] at h
      exact ih (k+1) _ msgs2 t h

theorem oaRunCore_terminal (cfg : AgentRunCfg) (exec : String → String → String)
    (responses : Nat → OAResp) (conv1 : PyConversation OAMsg)
    (conv2 : PyConversation OAMsg) (ret : String)
    (h : oaRunCore cfg exec responses conv1 = (conv2, ret)) :
    ret = maxIterationsFallback ∨
      (ret ≠ "" ∧ conv2.messages.getLast? = some (OAMsg.assistant ret)) := by
  rw [oaRunCore] at h
  by_cases ht : cfg.hasTools
  · simp only [ht, if_true] at h
    rcases hres : (oaLoop exec responses (max 1 cfg.maxToolIterations) 0 conv1.messages).2
      with _ | t2
    · rw [hres] at h
      exact Or.inl (congrArg Prod.snd h).symm
    · rw [hres] at h
      have hloop : oaLoop exec responses (max 1 cfg.maxToolIterations) 0 conv1.messages =
          ((oaLoop exec responses (max 1 cfg.maxToolIterations) 0 conv1.messages).1, some t2) :=
        Prod.ext rfl hres
      obtain ⟨ht2, hlast⟩ := oaLoop_some exec responses _ 0 conv1.messages _ t2 hloop
      have h1 := congrArg Prod.fst h
      have h2 := congrArg Prod.snd h
      simp only at h1 h2
      subst h2
      refine Or.inr ⟨ht2, ?_⟩
      rw [← h1]
      exact hlast
  · simp only [ht, Bool.false_eq_true, if_false] at h
    by_cases htxt : (responses 0).text = ""
    · simp only [htxt, ne_eq, not_true_eq_false, if_false] at h
      exact Or.inl (congrArg Prod.snd h).symm
    · simp only [htxt, ne_eq, not_false_eq_true, if_true] at h
      have h1 := congrArg Prod.fst h
      have h2 := congrArg Prod.snd h
      simp only at h1 h2
      subst h2
      refine Or.inr ⟨htxt, ?_⟩
      rw [← h1]
      simp only [List.getLast?_append]
      rfl

theorem anthRunCore_terminal (cfg : AgentRunCfg) (exec : String → String → String)
    (responses : Nat → AResp) (conv1 : PyConversation AMsg)
    (conv2 : PyConversation AMsg) (ret : String)
    (h : anthRunCore cfg exec responses conv1 = (conv2, ret)) :
    ret = maxIterationsFallback ∨
      (ret ≠ "" ∧ conv2.messages.getLast? = some (AMsg.assistant ret)) := by
  rw [anthRunCore] at h
  by_cases ht : cfg.hasTools
  · simp only [ht, if_true] at h
    rcases hres : (anthLoop exec responses (max 1 cfg.maxToolIterations) 0 conv1.messages).2
      with _ | t2
    · rw [hres] at h
      exact Or.inl (congrArg Prod.snd h).symm
    · rw [hres] at h
      have hloop : anthLoop exec responses (max 1 cfg.maxToolIterations) 0 conv1.messages =
          ((anthLoop exec responses (max 1 cfg.maxToolIterations) 0 conv1.messages).1, some t2) :=
        Prod.ext rfl hres
      obtain ⟨ht2, hlast⟩ := anthLoop_some exec responses _ 0 conv1.messages _ t2 hloop
      have h1 := congrArg Prod.fst h
      have h2 := congrArg Prod.snd h
      simp only at h1 h2
      subst h2
      refine Or.inr ⟨ht2, ?_⟩
      rw [← h1]
      exact hlast
  · simp only [ht, Bool.false_eq_true, if_false] at h
    by_cases htxt : (responses 0).text = ""
    · simp only [htxt, ne_eq, not_true_eq_false, if_false] at h
      exact Or.inl (congrArg Prod.snd h).symm
    · simp only [htxt, ne_eq, not_false_eq_true, if_true] at h
      have h1 := congrArg Prod.fst h
      have h2 := congrArg Prod.snd h
      simp only at h1 h2
      subst h2
      refine Or.inr ⟨htxt, ?_⟩
      rw [← h1]
      simp only [List.getLast?_append]
      rfl

/-- C6: on both dialect paths, `AgentRunner.run` either returns a non-empty
assistant text with the conversation ending in that assistant turn, or it
returns the fixed fallback "Sorry, I reached the maximum tool iterations."
(returned when the tool loop exhausts its budget, and on the no-tools path
when the model reply is empty). -/
theorem run_terminal_state :
    (∀ cfg acCfg maxTokens contentLen exec responses docContext summaryText
        conv prompt blocks conv2 ret,
      oaAgentRun cfg acCfg maxTokens contentLen exec responses docContext summaryText
          conv prompt blocks = (conv2, ret) →
      ret = maxIterationsFallback ∨
        (ret ≠ "" ∧ conv2.messages.getLast? = some (OAMsg.assistant ret))) ∧
    (∀ cfg acCfg maxTokens contentLen exec responses summaryText
        conv prompt blocks conv2 ret,
      anthAgentRun cfg acCfg maxTokens contentLen exec responses summaryText
          conv prompt blocks = (conv2, ret) →
      ret = maxIterationsFallback ∨
        (ret ≠ "" ∧ conv2.messages.getLast? = some (AMsg.assistant ret))) := by
  constructor
  · intro cfg acCfg maxTokens contentLen exec responses docContext summaryText
      conv prompt blocks conv2 ret h
    rw [oaAgentRun] at h
    exact oaRunCore_terminal cfg exec responses _ conv2 ret h
  · intro cfg acCfg maxTokens contentLen exec responses summaryText
      conv prompt blocks conv2 ret h
    rw [anthAgentRun] at h
    exact anthRunCore_terminal cfg exec responses _ conv2 ret h

/-- Witness for C6: a no-tools run whose model reply is "ok" returns "ok"
and the conversation ends in that assistant turn. -/
theorem run_terminal_state_witness :
    ("ok" : String) = maxIterationsFallback ∨
      (("ok" : String) ≠ "" ∧
        (PyConversation.mk "" [OAMsg.user (OAContent.str "hi"), OAMsg.assistant "ok"]
          : PyConversation OAMsg).messages.getLast? = some (OAMsg.assistant "ok")) :=
  run_terminal_state.1 (AgentRunCfg.mk 8 false) (AutoCompactCfg.mk false (4/5) 5) 1024
    (fun _ => 0) (fun _ _ => "") (fun _ => OAResp.mk "ok" []) "" ""
    (PyConversation.mk "" []) "hi" []
    (PyConversation.mk "" [OAMsg.user (OAContent.str "hi"), OAMsg.assistant "ok"]) "ok" rfl

/-! ## The tool-call/tool-result transcript invariant (C1) -/

/-- How a stored message counts for the invariant: an assistant turn
carrying tool calls (with the result ids it requires), a plain assistant
turn, a tool-result turn with its id, or anything else. -/
inductive MsgClass where
  | assistantCalls (ids : List String)
  | assistantPlain
  | toolRes (id : String)
  | other

/-- Checker state: `free` (no constraint on tool results) or `expect ids`
(the given result ids must come next, and once they are consumed no
further tool result may appear before the next assistant turn). -/
inductive InvState where
  | free
  | expect (ids : List String)

def invStep : InvState → MsgClass → Option InvState
  | InvState.expect (i :: ids), MsgClass.toolRes tid =>
      if tid = i then some (InvState.expect ids) else none
  | InvState.expect (_ :: _), _ => none
  | InvState.expect [], MsgClass.toolRes _ => none
  | InvState.expect [], MsgClass.assistantPlain => some InvState.free
  | InvState.expect [], MsgClass.assistantCalls ids => some (InvState.expect ids)
  | InvState.expect [], MsgClass.other => some (InvState.expect [])
  | InvState.free, MsgClass.assistantCalls ids => some (InvState.expect ids)
  | InvState.free, _ => some InvState.free

def classRun : InvState → List MsgClass → Option InvState
  | s, [] => some s
  | s, c :: rest =>
    match invStep s c with
    | some s2 => classRun s2 rest
    | none => none

def pendingState : InvState → Bool
  | InvState.expect (_ :: _) => true
  | _ => false

def classOk (s : InvState) (cs : List MsgClass) : Bool :=
  match classRun s cs with
  | some s2 => !pendingState s2
  | none => false

/-- The invariant: scanning the transcript, every assistant turn carrying
result ids is immediately followed by exactly those tool-result turns in
order, with no further tool result before the next assistant turn, and no
expectation left open at the end. -/
def transcriptInv {msgty : Type} (classify : msgty → MsgClass) (msgs : List msgty) : Bool :=
  classOk InvState.free (msgs.map classify)

theorem classRun_append (cs1 cs2 : List MsgClass) :
    ∀ s, classRun s (cs1 ++ cs2) =
      (classRun s cs1).bind (fun s2 => classRun s2 cs2) := by
  induction cs1 with
  | nil => intro s; rfl
  | cons c rest ih =>
    intro s
    rw [List.cons_append, classRun]
    cases hs : invStep s c with
    | none => rw [classRun, hs]; rfl
    | some s2 => rw [classRun, hs]; exact ih s2

theorem classOk_iff (s : InvState) (cs : List MsgClass) :
    classOk s cs = true ↔
      ∃ s2, classRun s cs = some s2 ∧ pendingState s2 = false := by
  rw [classOk]
  cases h : classRun s cs with
  | none => simp
  | some s2 => simp [h]

theorem classOk_expect_free (cs : List MsgClass) :
    ∀ ids, classOk (InvState.expect ids) cs = true → classOk InvState.free cs = true := by
  induction cs with
  | nil =>
    intro ids h
    rw [classOk] at h ⊢
    rw [classRun] at h ⊢
    cases ids with
    | nil => rfl
    | cons i ids => exact absurd h (by simp [pendingState])
  | cons c rest ih =>
    intro ids h
    rw [classOk, classRun] at h
    cases ids with
    | cons i ids =>
      cases c with
      | toolRes tid =>
        by_cases htid : tid = i
        · rw [show invStep (InvState.expect (i :: ids)) (MsgClass.toolRes tid) =
              some (InvState.expect ids) from by rw [invStep, if_pos htid]] at h
          have h2 : classOk (InvState.expect ids) rest = true := by
            rw [classOk]; exact h
          have h3 := ih ids h2
          rw [classOk, classRun]
          rw [show invStep InvState.free (MsgClass.toolRes tid) = some InvState.free from rfl]
          rw [classOk] at h3
          exact h3
        · rw [show invStep (InvState.expect (i :: ids)) (MsgClass.toolRes tid) = none from by
            rw [invStep, if_neg htid]] at h
          exact absurd h (by simp)
      | assistantCalls ids2 => exact absurd h (by simp [invStep])
      | assistantPlain => exact absurd h (by simp [invStep])
      | other => exact absurd h (by simp [invStep])
    | nil =>
      cases c with
      | toolRes tid =>
        rw [show invStep (InvState.expect []) (MsgClass.toolRes tid) = none from rfl] at h
        exact absurd h (by simp)
      | assistantCalls ids2 =>
        rw [show invStep (InvState.expect []) (MsgClass.assistantCalls ids2) =
          some (InvState.expect ids2) from rfl] at h
        rw [classOk, classRun,
          show invStep InvState.free (MsgClass.assistantCalls ids2) =
            some (InvState.expect ids2) from rfl]
        exact h
      | assistantPlain =>
        rw [show invStep (InvState.expect []) MsgClass.assistantPlain =
          some InvState.free from rfl] at h
        rw [classOk, classRun,
          show invStep InvState.free MsgClass.assistantPlain = some InvState.free from rfl]
        exact h
      | other =>
        rw [show invStep (InvState.expect []) MsgClass.other =
          some (InvState.expect []) from rfl] at h
        have h2 : classOk (InvState.expect []) rest = true := by
          rw [classOk]; exact h
        have h3 := ih [] h2
        rw [classOk, classRun,
          show invStep InvState.free MsgClass.other = some InvState.free from rfl]
        rw [classOk] at h3
        exact h3

theorem classOk_free_cons (c : MsgClass) (rest : List MsgClass)
    (h : classOk InvState.free (c :: rest) = true) :
    classOk InvState.free rest = true := by
  rw [classOk, classRun] at h
  cases c with
  | assistantCalls ids =>
    rw [show invStep InvState.free (MsgClass.assistantCalls ids) =
      some (InvState.expect ids) from rfl] at h
    exact classOk_expect_free rest ids (by rw [classOk]; exact h)
  | assistantPlain =>
    rw [show invStep InvState.free MsgClass.assistantPlain = some InvState.free from rfl] at h
    rw [classOk]; exact h
  | toolRes tid =>
    rw [show invStep InvState.free (MsgClass.toolRes tid) = some InvState.free from rfl] at h
    rw [classOk]; exact h
  | other =>
    rw [show invStep InvState.free MsgClass.other = some InvState.free from rfl] at h
    rw [classOk]; exact h

theorem classOk_free_drop (k : Nat) :
    ∀ cs : List MsgClass, classOk InvState.free cs = true →
      classOk InvState.free (cs.drop k) = true := by
  induction k with
  | zero => intro cs h; exact h
  | succ k ih =>
    intro cs h
    cases cs with
    | nil => exact h
    | cons c rest =>
      rw [List.drop_succ_cons]
      exact ih rest (classOk_free_cons c rest h)

theorem pendingState_false_cases (s : InvState) (h : pendingState s = false) :
    s = InvState.free ∨ s = InvState.expect [] := by
  cases s with
  | free => exact Or.inl rfl
  | expect ids =>
    cases ids with
    | nil => exact Or.inr rfl
    | cons i ids => exact absurd h (by simp [pendingState])

theorem classOk_append_single (cs : List MsgClass) (c : MsgClass)
    (h : classOk InvState.free cs = true)
    (hc : c = MsgClass.other ∨ c = MsgClass.assistantPlain) :
    classOk InvState.free (cs ++ [c]) = true := by
  obtain ⟨s2, hrun, hpend⟩ := (classOk_iff _ _).mp h
  rw [classOk, classRun_append, hrun, Option.some_bind]
  rcases pendingState_false_cases s2 hpend with rfl | rfl <;>
    rcases hc with rfl | rfl <;> rfl

theorem classRun_expect_consume :
    ∀ ids : List String,
      classRun (InvState.expect ids) (ids.map MsgClass.toolRes) = some (InvState.expect []) := by
  intro ids
  induction ids with
  | nil => rfl
  | cons i ids ih =>
    rw [List.map_cons, classRun,
      show invStep (InvState.expect (i :: ids)) (MsgClass.toolRes i) =
        some (InvState.expect ids) from by rw [invStep, if_pos rfl]]
    exact ih

theorem classOk_append_calls (cs : List MsgClass) (ids : List String)
    (h : classOk InvState.free cs = true) :
    classOk InvState.free
      (cs ++ (MsgClass.assistantCalls ids :: ids.map MsgClass.toolRes)) = true := by
  obtain ⟨s2, hrun, hpend⟩ := (classOk_iff _ _).mp h
  rw [classOk, classRun_append, hrun, Option.some_bind]
  have hstep : invStep s2 (MsgClass.assistantCalls ids) = some (InvState.expect ids) := by
    rcases pendingState_false_cases s2 hpend with rfl | rfl <;> rfl
  rw [classRun, hstep]
  show (match classRun (InvState.expect ids) (ids.map MsgClass.toolRes) with
    | some s3 => !pendingState s3
    | none => false) = true
  rw [classRun_expect_consume]
  rfl

/-- The result ids the loop actually answers on the OpenAI path: the ids of
the calls whose function name is non-empty (the others are skipped). -/
def oaNamedCallIds (calls : List OAToolCall) : List String :=
  calls.filterMap (fun c => if c.name = "" then none else some c.id)

/-- Classifier for the invariant as the code maintains it (OpenAI path):
an assistant tool-call turn requires one result per named call. -/
def oaClassify : OAMsg → MsgClass
  | OAMsg.assistantToolCalls _ calls => MsgClass.assistantCalls (oaNamedCallIds calls)
  | OAMsg.assistant _ => MsgClass.assistantPlain
  | OAMsg.tool i _ _ => MsgClass.toolRes i
  | _ => MsgClass.other

/-- Classifier for C1 exactly as claimed (OpenAI path): an assistant turn
carrying K tool calls requires one result per call, named or not. -/
def oaClassifyClaim : OAMsg → MsgClass
  | OAMsg.assistantToolCalls _ calls => MsgClass.assistantCalls (calls.map (fun c => c.id))
  | OAMsg.assistant _ => MsgClass.assistantPlain
  | OAMsg.tool i _ _ => MsgClass.toolRes i
  | _ => MsgClass.other

/-- The result ids the loop actually answers on the Anthropic path: ids of
tool_use blocks whose name and id are both non-empty. -/
def anthValidToolUseIds (blocks : List ABlock) : List String :=
  blocks.filterMap (fun b =>
    match b with
    | ABlock.toolUse i n _ => if n = "" || i = "" then none else some i
    | _ => none)

/-- Classifier for the invariant as the code maintains it (Anthropic
path): an assistant block turn requires one tool_result turn per valid
tool_use block; a user turn holding a single tool_result block is the
result turn. -/
def anthClassify : AMsg → MsgClass
  | AMsg.assistantBlocks bs => MsgClass.assistantCalls (anthValidToolUseIds bs)
  | AMsg.assistant _ => MsgClass.assistantPlain
  | AMsg.userBlocks [ABlock.toolResult i _] => MsgClass.toolRes i
  | _ => MsgClass.other

theorem oaToolResults_classes (exec : String → String → String) :
    ∀ calls : List OAToolCall,
      (oaToolResults exec calls).map oaClassify =
        (oaNamedCallIds calls).map MsgClass.toolRes := by
  intro calls
  induction calls with
  | nil => rfl
  | cons c calls ih =>
    rw [oaToolResults, List.filterMap_cons, oaNamedCallIds, List.filterMap_cons]
    by_cases hn : c.name = ""
    · simp only [hn, if_pos rfl, if_true]
      exact ih
    · simp only [if_neg hn]
      rw [List.map_cons, List.map_cons]
      rw [oaToolResults, oaNamedCallIds] at ih
      rw [ih]
      rfl

theorem anthToolResults_classes (exec : String → String → String) :
    ∀ calls : List AToolUse,
      (anthToolResults exec calls).map anthClassify =
        (calls.filterMap (fun c => if c.name = "" || c.id = "" then none else some c.id)).map
          MsgClass.toolRes := by
  intro calls
  induction calls with
  | nil => rfl
  | cons c calls ih =>
    rw [anthToolResults, List.filterMap_cons, List.filterMap_cons]
    by_cases hn : (c.name = "" || decide (c.id = "")) = true
    · simp only [Bool.or_eq_true, decide_eq_true_eq] at hn
      have : (if c.name = "" || c.id = "" then (none : Option String) else some c.id) = none := by
        simp [hn]
      rw [this]
      have h2 : (if c.name = "" || c.id = "" then (none : Option AMsg)
          else some (AMsg.userBlocks [ABlock.toolResult c.id (exec c.name c.input)])) = none := by
        simp [hn]
      rw [h2]
      exact ih
    · simp only [Bool.or_eq_true, decide_eq_true_eq, not_or] at hn
      have : (if c.name = "" || c.id = "" then (none : Option String) else some c.id) =
          some c.id := by
        simp [hn.1, hn.2]
      rw [this]
      have h2 : (if c.name = "" || c.id = "" then (none : Option AMsg)
          else some (AMsg.userBlocks [ABlock.toolResult c.id (exec c.name c.input)])) =
          some (AMsg.userBlocks [ABlock.toolResult c.id (exec c.name c.input)]) := by
        simp [hn.1, hn.2]
      rw [h2]
      rw [List.map_cons, List.map_cons]
      rw [anthToolResults] at ih
      rw [ih]
      rfl

theorem anthAssistantBlocks_class (text : String) (calls : List AToolUse) :
    anthClassify (AMsg.assistantBlocks
        ((if text ≠ "" then [ABlock.text text] else []) ++
          calls.map (fun c => ABlock.toolUse c.id c.name c.input))) =
      MsgClass.assistantCalls
        (calls.filterMap (fun c => if c.name = "" || c.id = "" then none else some c.id)) := by
  rw [anthClassify]
  congr 1
  rw [anthValidToolUseIds, List.filterMap_append, List.filterMap_map]
  have h1 : List.filterMap (fun b =>
      match b with
      | ABlock.toolUse i n _ => if n = "" || i = "" then none else some i
      | _ => none) (if text ≠ "" then [ABlock.text text] else []) = [] := by
    by_cases ht : text = "" <;> simp [ht, List.filterMap]
  rw [h1, List.nil_append]
  rfl

theorem oaLoop_inv (exec : String → String → String) (responses : Nat → OAResp) :
    ∀ fuel k msgs, transcriptInv oaClassify msgs = true →
      transcriptInv oaClassify (oaLoop exec responses fuel k msgs).1 = true := by
  intro fuel
  induction fuel with
  | zero => intro k msgs h; rw [oaLoop]; exact h
  | succ fuel ih =>
    intro k msgs h
    rw [oaLoop]
    by_cases hc : (responses k).tool_calls.isEmpty
    · simp only [hc, Bool.not_true, Bool.false_eq_true, if_false]
      by_cases htxt : (responses k).text = ""
      · simp only [htxt, ne_eq, not_true_eq_false, if_false]
        exact ih (k+1) msgs h
      · simp only [htxt, ne_eq, not_false_eq_true, if_true]
        rw [transcriptInv] at h ⊢
        rw [List.map_append]
        show classOk InvState.free (msgs.map oaClassify ++ [MsgClass.assistantPlain]) = true
        exact classOk_append_single _ _ h (Or.inr rfl)
    · simp only [hc, Bool.not_false, if_true]
      apply ih (k+1)
      rw [transcriptInv] at h ⊢
      rw [List.map_append, List.map_cons, oaToolResults_classes]
      show classOk InvState.free (msgs.map oaClassify ++
        (MsgClass.assistantCalls (oaNamedCallIds (responses k).tool_calls) ::
          (oaNamedCallIds (responses k).tool_calls).map MsgClass.toolRes)) = true
      exact classOk_append_calls _ _ h

theorem anthLoop_inv (exec : String → String → String) (responses : Nat → AResp) :
    ∀ fuel k msgs, transcriptInv anthClassify msgs = true →
      transcriptInv anthClassify (anthLoop exec responses fuel k msgs).1 = true := by
  intro fuel
  induction fuel with
  | zero => intro k msgs h; rw [anthLoop]; exact h
  | succ fuel ih =>
    intro k msgs h
    rw [anthLoop]
    by_cases hc : (responses k).tool_calls.isEmpty
    · simp only [hc, Bool.not_true, Bool.false_eq_true, if_false]
      by_cases htxt : (responses k).text = ""
      · simp only [htxt, ne_eq, not_true_eq_false, if_false]
        exact ih (k+1) msgs h
      · simp only [htxt, ne_eq, not_false_eq_true, if_true]
        rw [transcriptInv] at h ⊢
        rw [List.map_append]
        show classOk InvState.free (msgs.map anthClassify ++ [MsgClass.assistantPlain]) = true
        exact classOk_append_single _ _ h (Or.inr rfl)
    · simp only [hc, Bool.not_false, if_true]
      apply ih (k+1)
      rw [transcriptInv] at h ⊢
      rw [List.map_append, List.map_cons, anthToolResults_classes,
        anthAssistantBlocks_class]
      exact classOk_append_calls _ _ h

theorem maybeCompact_messages {msgty : Type} (acCfg : AutoCompactCfg) (maxTokens : Nat)
    (contentLen : msgty → Nat) (summaryText : String) (conv : PyConversation msgty) :
    ∃ n, (maybeCompact acCfg maxTokens contentLen summaryText conv).messages =
      conv.messages.drop n := by
  rw [maybeCompact]
  by_cases hs : shouldCompact acCfg maxTokens contentLen conv = true
  · rw [if_pos hs]
    have hmsgs : ∀ b : Bool,
        (if b = true then (compactMessages acCfg conv).2
         else PyConversation.mk (pyStrip summaryText)
           (compactMessages acCfg conv).2.messages).messages =
        (compactMessages acCfg conv).2.messages := by
      intro b
      cases b <;> rfl
    by_cases he : (compactMessages acCfg conv).1.isEmpty
    · rw [if_pos he]
      rw [compactMessages]
      by_cases hle : conv.messages.length ≤ max acCfg.preserveCount 1
      · rw [if_pos hle]
        exact ⟨0, (List.drop_zero _).symm⟩
      · rw [if_neg hle]
        exact ⟨conv.messages.length - max acCfg.preserveCount 1, rfl⟩
    · rw [if_neg he]
      rw [compactMessages]
      by_cases hle : conv.messages.length ≤ max acCfg.preserveCount 1
      · rw [if_pos hle]
        exact ⟨0, (List.drop_zero _).symm⟩
      · rw [if_neg hle]
        exact ⟨conv.messages.length - max acCfg.preserveCount 1, rfl⟩
  · rw [if_neg hs]
    exact ⟨0, (List.drop_zero _).symm⟩

theorem transcriptInv_drop {msgty : Type} (classify : msgty → MsgClass) (n : Nat)
    (msgs : List msgty) (h : transcriptInv classify msgs = true) :
    transcriptInv classify (msgs.drop n) = true := by
  rw [transcriptInv, List.map_drop]
  exact classOk_free_drop n _ h

theorem updateMsgDocContext_class (d : String) (m : OAMsg) :
    oaClassify (updateMsgDocContext d m) = oaClassify m := by
  cases m with
  | user c => cases c <;> rfl
  | system s => rfl
  | assistant s => rfl
  | assistantToolCalls s cs => rfl
  | tool i n s => rfl

theorem appendDocContext_classes (d : String) (msgs : List OAMsg) :
    (appendDocContext d msgs).map oaClassify = msgs.map oaClassify := by
  rw [appendDocContext]
  by_cases hd : d = ""
  · rw [if_pos hd]
  · rw [if_neg hd]
    cases hlast : msgs.getLast? with
    | none => rfl
    | some m =>
      have hdecomp : msgs.dropLast ++ [m] = msgs :=
        List.dropLast_append_getLast? m (Option.mem_def.mpr hlast)
      calc (msgs.dropLast ++ [updateMsgDocContext d m]).map oaClassify
          = msgs.dropLast.map oaClassify ++ [oaClassify (updateMsgDocContext d m)] := by
            rw [List.map_append]; rfl
        _ = msgs.dropLast.map oaClassify ++ [oaClassify m] := by
            rw [updateMsgDocContext_class]
        _ = (msgs.dropLast ++ [m]).map oaClassify := by rw [List.map_append]; rfl
        _ = msgs.map oaClassify := by rw [hdecomp]

theorem oaRunCore_inv (cfg : AgentRunCfg) (exec : String → String → String)
    (responses : Nat → OAResp) (conv1 : PyConversation OAMsg)
    (h : transcriptInv oaClassify conv1.messages = true) :
    transcriptInv oaClassify (oaRunCore cfg exec responses conv1).1.messages = true := by
  rw [oaRunCore]
  by_cases ht : cfg.hasTools
  · simp only [ht, if_true]
    have hloop := oaLoop_inv exec responses (max 1 cfg.maxToolIterations) 0 conv1.messages h
    cases hres : (oaLoop exec responses (max 1 cfg.maxToolIterations) 0 conv1.messages).2 with
    | none => simp only [hres]; exact hloop
    | some t => simp only [hres]; exact hloop
  · simp only [ht, Bool.false_eq_true, if_false]
    by_cases htxt : (responses 0).text = ""
    · simp only [htxt, ne_eq, not_true_eq_false, if_false]
      exact h
    · simp only [htxt, ne_eq, not_false_eq_true, if_true]
      rw [transcriptInv] at h ⊢
      rw [List.map_append]
      show classOk InvState.free (conv1.messages.map oaClassify ++ [MsgClass.assistantPlain]) = true
      exact classOk_append_single _ _ h (Or.inr rfl)

theorem anthRunCore_inv (cfg : AgentRunCfg) (exec : String → String → String)
    (responses : Nat → AResp) (conv1 : PyConversation AMsg)
    (h : transcriptInv anthClassify conv1.messages = true) :
    transcriptInv anthClassify (anthRunCore cfg exec responses conv1).1.messages = true := by
  rw [anthRunCore]
  by_cases ht : cfg.hasTools
  · simp only [ht, if_true]
    have hloop := anthLoop_inv exec responses (max 1 cfg.maxToolIterations) 0 conv1.messages h
    cases hres : (anthLoop exec responses (max 1 cfg.maxToolIterations) 0 conv1.messages).2 with
    | none => simp only [hres]; exact hloop
    | some t => simp only [hres]; exact hloop
  · simp only [ht, Bool.false_eq_true, if_false]
    by_cases htxt : (responses 0).text = ""
    · simp only [htxt, ne_eq, not_true_eq_false, if_false]
      exact h
    · simp only [htxt, ne_eq, not_false_eq_true, if_true]
      rw [transcriptInv] at h ⊢
      rw [List.map_append]
      show classOk InvState.free (conv1.messages.map anthClassify ++ [MsgClass.assistantPlain]) = true
      exact classOk_append_single _ _ h (Or.inr rfl)

theorem oaUserContent_class (prompt : String) (blocks : List ContentBlockM) :
    oaClassify (OAMsg.user (oaUserContent prompt blocks)) = MsgClass.other := rfl

theorem anthUserContent_class (prompt : String) (blocks : List ContentBlockM) :
    anthClassify (anthUserContent prompt blocks) = MsgClass.other := by
  rw [anthUserContent]
  by_cases hb : blocks.isEmpty
  · rw [if_pos hb]
    rfl
  · rw [if_neg hb]
    rfl

/-- C1 amended: starting from any conversation satisfying the invariant,
`AgentRunner.run` (either dialect) preserves it: every assistant turn
carrying tool calls is followed, before the next assistant turn, by exactly
one tool-result turn per call that names a tool (OpenAI: non-empty function
name; Anthropic: non-empty name and id), ids matching in the same order;
calls without a name (or id) are skipped and get no result turn. -/
theorem agent_toolcall_invariant :
    (∀ cfg acCfg maxTokens contentLen exec responses docContext summaryText
        conv prompt blocks,
      transcriptInv oaClassify conv.messages = true →
      transcriptInv oaClassify
        (oaAgentRun cfg acCfg maxTokens contentLen exec responses docContext summaryText
          conv prompt blocks).1.messages = true) ∧
    (∀ cfg acCfg maxTokens contentLen exec responses summaryText conv prompt blocks,
      transcriptInv anthClassify conv.messages = true →
      transcriptInv anthClassify
        (anthAgentRun cfg acCfg maxTokens contentLen exec responses summaryText
          conv prompt blocks).1.messages = true) := by
  constructor
  · intro cfg acCfg maxTokens contentLen exec responses docContext summaryText
      conv prompt blocks h
    rw [oaAgentRun]
    apply oaRunCore_inv
    obtain ⟨n, hn⟩ := maybeCompact_messages acCfg maxTokens contentLen summaryText
      (PyConversation.mk conv.summary
        (if (blocks.filter (fun b => b.type = "document")).isEmpty
         then conv.messages ++ [OAMsg.user (oaUserContent prompt blocks)]
         else appendDocContext docContext
           (conv.messages ++ [OAMsg.user (oaUserContent prompt blocks)])))
    rw [hn]
    apply transcriptInv_drop
    have hbase : transcriptInv oaClassify
        (conv.messages ++ [OAMsg.user (oaUserContent prompt blocks)]) = true := by
      rw [transcriptInv, List.map_append]
      show classOk InvState.free (conv.messages.map oaClassify ++ [MsgClass.other]) = true
      rw [transcriptInv] at h
      exact classOk_append_single _ _ h (Or.inl rfl)
    by_cases hd : (blocks.filter (fun b => b.type = "document")).isEmpty
    · rw [if_pos hd]
      exact hbase
    · rw [if_neg hd]
      rw [transcriptInv, appendDocContext_classes]
      rw [transcriptInv] at hbase
      exact hbase
  · intro cfg acCfg maxTokens contentLen exec responses summaryText conv prompt blocks h
    rw [anthAgentRun]
    apply anthRunCore_inv
    obtain ⟨n, hn⟩ := maybeCompact_messages acCfg maxTokens contentLen summaryText
      (PyConversation.mk conv.summary (conv.messages ++ [anthUserContent prompt blocks]))
    rw [hn]
    apply transcriptInv_drop
    rw [transcriptInv, List.map_append,
      show List.map anthClassify [anthUserContent prompt blocks] = [MsgClass.other] from by
        rw [List.map_cons, List.map_nil, anthUserContent_class]]
    rw [transcriptInv] at h
    exact classOk_append_single _ _ h (Or.inl rfl)

/-- Witness for C1 amended: a concrete OpenAI-path run (one tool round with
call id "id1" and name "read_file", then a plain reply) preserves the
invariant starting from the empty conversation. -/
theorem agent_toolcall_invariant_witness :
    transcriptInv oaClassify
      (oaAgentRun (AgentRunCfg.mk 8 true) (AutoCompactCfg.mk false (4/5) 5) 1024
        (fun _ => 0) (fun _ _ => "X")
        (fun k => if k = 0 then OAResp.mk "" [OAToolCall.mk "id1" "read_file" "{}"]
                  else OAResp.mk "done" [])
        "" "" (PyConversation.mk "" []) "hi" []).1.messages = true :=
  agent_toolcall_invariant.1 (AgentRunCfg.mk 8 true) (AutoCompactCfg.mk false (4/5) 5) 1024
    (fun _ => 0) (fun _ _ => "X")
    (fun k => if k = 0 then OAResp.mk "" [OAToolCall.mk "id1" "read_file" "{}"]
              else OAResp.mk "done" [])
    "" "" (PyConversation.mk "" []) "hi" [] rfl

/-- C1 counterexample: a provider reply carrying one tool call whose
function name is missing ("") is recorded as an assistant turn with K = 1
tool calls, but the loop skips it (`if not name: continue`) and appends no
tool-result turn, so the produced conversation violates the invariant as
claimed (checked with the per-call classifier `oaClassifyClaim`). -/
theorem agent_toolcall_invariant_cex :
    transcriptInv oaClassifyClaim
      (oaAgentRun (AgentRunCfg.mk 8 true) (AutoCompactCfg.mk false (4/5) 5) 1024
        (fun _ => 0) (fun _ _ => "r")
        (fun k => if k = 0 then OAResp.mk "" [OAToolCall.mk "id1" "" "{}"]
                  else OAResp.mk "done" [])
        "" "" (PyConversation.mk "" []) "hi" []).1.messages = false := rfl
